import Mathlib

/-!
Verification development for the rule-based inference engine
(`rules_engine.py`, class `MotorInferencia`).

The Python code is shallowly embedded as follows.

* A record value (a cell of the CSV row, or a rule operand from JSON) is
  numeric or a string, as in the spec's data model; numbers are modelled
  by rationals and strings by Lean strings.  Python comparison between a
  number and a string under an ordering operator raises `TypeError`;
  this is modelled by `Except`-valued comparison functions.
* A pandas row is modelled as an association list from field names to
  values; `variavel not in alerta_row` becomes a `lookup` returning
  `none`.
* `json.load` and `open` are modelled by a `ParseOutcome` describing
  what reading and parsing the rule file produced; rules as parsed from
  JSON are dictionaries whose fields may be absent, modelled by a record
  of `Option` fields (`RawRegra`).  Python dictionary access `r[k]` on a
  missing key raises `KeyError`, and `list.sort(key=...)` raises the
  first such error; successful `list.sort` is a stable sort by the key,
  modelled by insertion sort (stable sorts by the same key agree on all
  inputs, so insertion sort is extensionally the Python sort).
* Fully-formed rules (every field present), as the evaluation claims
  quantify over them, are modelled by the structure `Regra`.
-/

namespace RulesEngine

/-- A value occurring in a record field or as a rule operand: numeric or
string, as in the spec's data model (untyped at load time). -/
inductive Value where
  | num (q : ℚ)
  | str (s : String)
deriving DecidableEq, Repr

/-- Two values have the same kind when both are numeric or both are
strings; Python ordering comparisons are defined exactly within a kind. -/
def Value.sameKind : Value → Value → Bool
  | .num _, .num _ => true
  | .str _, .str _ => true
  | _, _ => false

/-- Python runtime errors that the engine's code paths can raise:
`TypeError` from an ordering comparison between a number and a string,
and `KeyError` from accessing a missing dictionary key. -/
inductive PyErr where
  | typeError
  | keyError (campo : String)
deriving DecidableEq, Repr

deriving instance DecidableEq for Except

/-- Python `x > y` on engine values: numeric on numbers, lexicographic on
strings, `TypeError` on mixed kinds. -/
def pyGt : Value → Value → Except PyErr Bool
  | .num a, .num b => .ok (decide (b < a))
  | .str a, .str b => .ok (decide (b < a))
  | _, _ => .error .typeError

/-- Python `x < y` on engine values. -/
def pyLt : Value → Value → Except PyErr Bool
  | .num a, .num b => .ok (decide (a < b))
  | .str a, .str b => .ok (decide (a < b))
  | _, _ => .error .typeError

/-- Python `x >= y` on engine values. -/
def pyGe : Value → Value → Except PyErr Bool
  | .num a, .num b => .ok (decide (b ≤ a))
  | .str a, .str b => .ok (decide (b ≤ a))
  | _, _ => .error .typeError

/-- Python `x <= y` on engine values. -/
def pyLe : Value → Value → Except PyErr Bool
  | .num a, .num b => .ok (decide (a ≤ b))
  | .str a, .str b => .ok (decide (a ≤ b))
  | _, _ => .error .typeError

/-- Python `x == y` on engine values: never raises; values of different
kinds are simply unequal. -/
def pyEq : Value → Value → Bool
  | .num a, .num b => decide (a = b)
  | .str a, .str b => decide (a = b)
  | _, _ => false

/-- One condition of a rule (`{"variavel": ..., "operador": ..., "valor": ...}`). -/
structure Condicao where
  variavel : String
  operador : String
  valor : Value
deriving DecidableEq, Repr

/-- The result payload of a rule (`{"risco": ..., "acao": ...}`). -/
structure Resultado where
  risco : String
  acao : String
deriving DecidableEq, Repr

/-- A fully-formed rule, as the evaluation loop reads it. -/
structure Regra where
  id : String
  prioridade : ℤ
  descricao : String
  condicoes : List Condicao
  resultado : Resultado
deriving DecidableEq, Repr

/-- A record (one row of the alerts DataFrame): an association list from
field names to values. -/
abbrev Record := List (String × Value)

/-- Embedding of `MotorInferencia._verificar_condicao` (lines 29-45):
sequential dispatch on the operator string; an unrecognized operator
falls through to `False`. -/
def verificar_condicao (alerta_valor : Value) (operador : String)
    (regra_valor : Value) : Except PyErr Bool :=
  if operador = ">" then pyGt alerta_valor regra_valor
  else if operador = "<" then pyLt alerta_valor regra_valor
  else if operador = "==" then .ok (pyEq alerta_valor regra_valor)
  else if operador = "!=" then .ok (!pyEq alerta_valor regra_valor)
  else if operador = ">=" then pyGe alerta_valor regra_valor
  else if operador = "<=" then pyLe alerta_valor regra_valor
  else .ok false

/-- One iteration of the inner condition loop of `avaliar_alerta`
(lines 54-66): a missing field makes the condition fail without an
error; otherwise the comparison is performed (and may raise). -/
def condVale (a : Record) (c : Condicao) : Except PyErr Bool :=
  match a.lookup c.variavel with
  | none => .ok false
  | some alerta_valor => verificar_condicao alerta_valor c.operador c.valor

/-- The inner `for condicao in regra['condicoes']` loop of
`avaliar_alerta`: conditions are checked in declared order, stopping at
the first failing one (`break`); a raised comparison error propagates. -/
def checkConds (a : Record) : List Condicao → Except PyErr Bool
  | [] => .ok true
  | condicao :: resto =>
    match condVale a condicao with
    | .error e => .error e
    | .ok true => checkConds a resto
    | .ok false => .ok false

/-- Embedding of `MotorInferencia.avaliar_alerta` (lines 47-71): scan the
stored rules in order, return the payload and id of the first rule whose
conditions all hold, and the default result when none does. -/
def avaliar_alerta (regras : List Regra) (alerta_row : Record) :
    Except PyErr (String × String × String) :=
  match regras with
  | [] => .ok ("NORMAL", "Monitorização de rotina.", "SEM_REGRA")
  | regra :: resto =>
    match checkConds alerta_row regra.condicoes with
    | .error e => .error e
    | .ok true => .ok (regra.resultado.risco, regra.resultado.acao, regra.id)
    | .ok false => avaliar_alerta resto alerta_row

/-- The ordering by which `__init__` sorts the rules (line 20:
`self.regras.sort(key=lambda r: r['prioridade'])`). -/
def relPrio (r s : Regra) : Prop := r.prioridade ≤ s.prioridade

instance : DecidableRel relPrio := fun r s =>
  inferInstanceAs (Decidable (r.prioridade ≤ s.prioridade))

/-- Embedding of the sort in `__init__` (line 20).  Python's `list.sort`
is a stable sort by the key; any stable sort by a fixed key is
extensionally unique, here realized by insertion sort. -/
def ordenarRegras (regras : List Regra) : List Regra :=
  List.insertionSort relPrio regras

/-- What reading and parsing the alerts CSV produced: the file may be
missing (`FileNotFoundError`), unreadable as a CSV with a `timestamp`
column (any other exception of the read, lines 89-91), or a list of
rows. -/
inductive CsvOutcome where
  | fileNotFound
  | readError
  | rows (dados : List Record)

/-- The row-by-row application `df.apply(lambda row: self.avaliar_alerta(row), axis=1)`
(lines 93-97): results in input order; the first raised evaluation error
propagates out of the whole application. -/
def avaliarCada (regras : List Regra) : List Record →
    Except PyErr (List (String × String × String))
  | [] => .ok []
  | linha :: resto =>
    match avaliar_alerta regras linha with
    | .error e => .error e
    | .ok resultado =>
      match avaliarCada regras resto with
      | .error e => .error e
      | .ok resultados => .ok (resultado :: resultados)

/-- Embedding of `MotorInferencia.processar_dataset` (lines 73-104): with
an empty rule list or a failed CSV read it returns `None`; otherwise it
returns the per-row results (the returned DataFrame is the input rows
annotated with exactly these result columns). -/
def processar_dataset (regras : List Regra) (src : CsvOutcome) :
    Except PyErr (Option (List (String × String × String))) :=
  if regras.isEmpty then .ok none
  else
    match src with
    | .fileNotFound => .ok none
    | .readError => .ok none
    | .rows dados =>
      match avaliarCada regras dados with
      | .error e => .error e
      | .ok resultados => .ok (some resultados)

/-- A condition as parsed from JSON: a dictionary whose keys may be
absent. -/
structure RawCondicao where
  variavel : Option String
  operador : Option String
  valor : Option Value
deriving DecidableEq, Repr

/-- A result payload as parsed from JSON. -/
structure RawResultado where
  risco : Option String
  acao : Option String
deriving DecidableEq, Repr

/-- A rule as parsed from JSON: a dictionary whose keys may be absent;
no structural validation has happened. -/
structure RawRegra where
  id : Option String
  prioridade : Option ℤ
  descricao : Option String
  condicoes : Option (List RawCondicao)
  resultado : Option RawResultado
deriving DecidableEq, Repr

/-- What opening and `json.load`-ing the rule file produced: the file may
be missing (`FileNotFoundError`), not valid JSON (`json.JSONDecodeError`),
or an array of rule dictionaries. -/
inductive ParseOutcome where
  | fileNotFound
  | decodeError
  | parsed (doc : List RawRegra)

/-- The ordering by which `__init__` sorts raw rules; the `getD` default
is only reached when every rule has a priority, see `motorInit`. -/
def relRawPrio (r s : RawRegra) : Prop :=
  r.prioridade.getD 0 ≤ s.prioridade.getD 0

instance : DecidableRel relRawPrio := fun r s =>
  inferInstanceAs (Decidable (r.prioridade.getD 0 ≤ s.prioridade.getD 0))

/-- Embedding of `MotorInferencia.__init__` (lines 12-27).  A missing or
unparseable rule file is caught, reported on the console only, and
leaves the engine with an empty rule list (construction succeeds).  On a
parsed document the rules are stably sorted by `r['prioridade']`; the
key access raises an uncaught `KeyError` when some rule lacks the
`prioridade` key. -/
def motorInit : ParseOutcome → Except PyErr (List RawRegra)
  | .fileNotFound => .ok []
  | .decodeError => .ok []
  | .parsed doc =>
    if doc.all (fun r => r.prioridade.isSome) then
      .ok (List.insertionSort relRawPrio doc)
    else
      .error (.keyError "prioridade")

/-! ### Indexed rules: auxiliary definitions for stability -/

/-- Rules paired with their positions in the source order, starting at a
given index. -/
def comIndices (n : ℕ) : List Regra → List (ℕ × Regra)
  | [] => []
  | r :: rs => (n, r) :: comIndices (n + 1) rs

/-- The lexicographic order on indexed rules: by priority, then by source
position.  A stable sort by priority is exactly a sort by this order. -/
def relLex (e f : ℕ × Regra) : Prop :=
  e.2.prioridade < f.2.prioridade ∨
    (e.2.prioridade = f.2.prioridade ∧ e.1 ≤ f.1)

instance : DecidableRel relLex := fun e f =>
  inferInstanceAs (Decidable (e.2.prioridade < f.2.prioridade ∨
    (e.2.prioridade = f.2.prioridade ∧ e.1 ≤ f.1)))

instance : IsTotal Regra relPrio :=
  ⟨fun a b => le_total a.prioridade b.prioridade⟩

instance : IsTrans Regra relPrio :=
  ⟨fun _ _ _ h₁ h₂ => le_trans h₁ h₂⟩

instance : IsTotal (ℕ × Regra) relLex :=
  ⟨fun a b => by unfold relLex; omega⟩

instance : IsTrans (ℕ × Regra) relLex :=
  ⟨fun a b c h₁ h₂ => by unfold relLex at *; omega⟩

/-! ### Concrete rules and records used as test inputs -/

/-- The condition `temp > 40` with a numeric operand (as in
`REGRA_CRITICA_01` of the sample rule file). -/
def condTempGt40 : Condicao :=
  { variavel := "temp", operador := ">", valor := .num 40 }

/-- A rule with one numeric ordering condition on `temp`. -/
def regraOrd : Regra :=
  { id := "REGRA_CRITICA_01", prioridade := 1, descricao := "Temp > 40",
    condicoes := [condTempGt40],
    resultado := { risco := "CRÍTICO", acao := "Mobilização imediata." } }

/-- A rule with an empty condition list (matches every record). -/
def regraVazia : Regra :=
  { id := "REGRA_VAZIA", prioridade := 2, descricao := "sempre",
    condicoes := [],
    resultado := { risco := "ALTO", acao := "Enviar vigilância." } }

/-- A second rule with an empty condition list and a lower priority
value (evaluated earlier) than `regraVazia2Alta`. -/
def regraVazia2 : Regra :=
  { id := "REGRA_VAZIA_2", prioridade := 3, descricao := "sempre",
    condicoes := [],
    resultado := { risco := "BAIXO", acao := "Monitorizar." } }

/-- A record whose `temp` field holds a string. -/
def recTempStr : Record := [("temp", .str "quente")]

/-- A record whose `temp` field holds the number 42. -/
def recTempNum : Record := [("temp", .num 42)]

/-- A record with no fields at all. -/
def recVazio : Record := []

/-- A raw condition missing its `operador` key. -/
def rawCondSemOp : RawCondicao :=
  { variavel := some "temp", operador := none, valor := some (.num 40) }

/-- A raw rule that is structurally parseable but has a condition with a
missing `operador` key. -/
def rawRegraSemOp : RawRegra :=
  { id := some "REGRA_X", prioridade := some 1, descricao := some "",
    condicoes := some [rawCondSemOp],
    resultado := some { risco := some "ALTO", acao := some "Vigiar." } }

/-- A raw rule missing its `prioridade` key. -/
def rawRegraSemPrio : RawRegra :=
  { id := some "REGRA_Y", prioridade := none, descricao := some "",
    condicoes := some [], resultado := none }

/-! ### Helper lemmas about the evaluation loop -/

/-- Appending further conditions after a definitely failing one cannot
change the verdict: the loop breaks at the first failing condition. -/
theorem checkConds_break (a : Record) (cs₁ : List Condicao) (c : Condicao)
    (cs₂ : List Condicao) (h₁ : ∀ c' ∈ cs₁, condVale a c' = .ok true)
    (hc : condVale a c = .ok false) :
    checkConds a (cs₁ ++ c :: cs₂) = .ok false := by
  induction cs₁ with
  | nil => simp [checkConds, hc]
  | cons d ds ih =>
    have hd : condVale a d = .ok true := h₁ d (by simp)
    simpa [checkConds, hd] using ih (fun c' hc' => h₁ c' (by simp [hc']))

/-- A rule whose condition check definitely fails is skipped. -/
theorem avaliar_skip (a : Record) (r : Regra) (resto : List Regra)
    (h : checkConds a r.condicoes = .ok false) :
    avaliar_alerta (r :: resto) a = avaliar_alerta resto a := by
  simp [avaliar_alerta, h]

/-- The scan stops at the first rule whose conditions all hold, provided
every earlier rule fails definitely; later rules are irrelevant. -/
theorem avaliar_first_match (a : Record) (rs₁ : List Regra) (r : Regra)
    (rs₂ : List Regra)
    (h₁ : ∀ r' ∈ rs₁, checkConds a r'.condicoes = .ok false)
    (hr : checkConds a r.condicoes = .ok true) :
    avaliar_alerta (rs₁ ++ r :: rs₂) a =
      .ok (r.resultado.risco, r.resultado.acao, r.id) := by
  induction rs₁ with
  | nil => simp [avaliar_alerta, hr]
  | cons d ds ih =>
    have hd : checkConds a d.condicoes = .ok false := h₁ d (by simp)
    simpa [avaliar_alerta, hd] using ih (fun r' hr' => h₁ r' (by simp [hr']))

/-- When every rule fails definitely, the scan falls through to the
default result. -/
theorem avaliar_default (a : Record) (rs : List Regra)
    (h : ∀ r ∈ rs, checkConds a r.condicoes = .ok false) :
    avaliar_alerta rs a =
      .ok ("NORMAL", "Monitorização de rotina.", "SEM_REGRA") := by
  induction rs with
  | nil => rfl
  | cons d ds ih =>
    have hd : checkConds a d.condicoes = .ok false := h d (by simp)
    simpa [avaliar_alerta, hd] using ih (fun r hr => h r (by simp [hr]))

/-- Characterization of a successful batch run: one result per row, in
input order, each produced by `avaliar_alerta`. -/
theorem avaliarCada_ok (regras : List Regra) :
    ∀ (dados : List Record) (out : List (String × String × String)),
      avaliarCada regras dados = .ok out →
      out.length = dados.length ∧
        ∀ (k : ℕ) (h₁ : k < dados.length) (h₂ : k < out.length),
          avaliar_alerta regras (dados.get ⟨k, h₁⟩) = .ok (out.get ⟨k, h₂⟩) := by
  intro dados
  induction dados with
  | nil =>
    intro out h
    simp only [avaliarCada] at h
    cases h
    exact ⟨rfl, fun k h₁ _ => by simp at h₁⟩
  | cons linha resto ih =>
    intro out h
    simp only [avaliarCada] at h
    cases hav : avaliar_alerta regras linha with
    | error e => rw [hav] at h; cases h
    | ok resultado =>
      rw [hav] at h
      cases hres : avaliarCada regras resto with
      | error e => rw [hres] at h; cases h
      | ok resultados =>
        rw [hres] at h
        cases h
        obtain ⟨hlen, hpt⟩ := ih resultados hres
        refine ⟨by simp [hlen], ?_⟩
        intro k h₁ h₂
        cases k with
        | zero => simpa using hav
        | succ k => simpa using hpt k (by simpa using h₁) (by simpa using h₂)

/-! ### Lemmas about indexed rules -/

theorem comIndices_map_snd (n : ℕ) :
    ∀ rs : List Regra, (comIndices n rs).map Prod.snd = rs := by
  intro rs
  induction rs generalizing n with
  | nil => rfl
  | cons r rs ih => simp [comIndices, ih]

theorem mem_comIndices_ge (n : ℕ) :
    ∀ (rs : List Regra) (e : ℕ × Regra), e ∈ comIndices n rs → n ≤ e.1 := by
  intro rs
  induction rs generalizing n with
  | nil => intro e he; cases he
  | cons r rs ih =>
    intro e he
    rcases (List.mem_cons).1 he with h | h
    · subst h; exact le_refl n
    · exact Nat.le_of_lt (Nat.lt_of_lt_of_le (Nat.lt_succ_self n) (ih (n + 1) e h))

theorem comIndices_pairwise (n : ℕ) :
    ∀ rs : List Regra, (comIndices n rs).Pairwise (fun e f => e.1 < f.1) := by
  intro rs
  induction rs generalizing n with
  | nil => exact List.Pairwise.nil
  | cons r rs ih =>
    refine List.pairwise_cons.2 ⟨?_, ih (n + 1)⟩
    intro e he
    exact Nat.lt_of_lt_of_le (Nat.lt_succ_self n) (mem_comIndices_ge (n + 1) rs e he)

theorem mem_comIndices (n : ℕ) :
    ∀ (rs : List Regra) (e : ℕ × Regra), e ∈ comIndices n rs →
      ∃ (j : ℕ) (h : j < rs.length), e = (n + j, rs.get ⟨j, h⟩) := by
  intro rs
  induction rs generalizing n with
  | nil => intro e he; cases he
  | cons r rs ih =>
    intro e he
    rcases (List.mem_cons).1 he with h | h
    · exact ⟨0, by simp, by simpa using h⟩
    · obtain ⟨j, hj, hje⟩ := ih (n + 1) e h
      exact ⟨j + 1, by simpa using hj, by simpa [Nat.add_assoc, Nat.add_comm 1 j] using hje⟩

theorem comIndices_get_mem (n : ℕ) :
    ∀ (rs : List Regra) (j : ℕ) (h : j < rs.length),
      (n + j, rs.get ⟨j, h⟩) ∈ comIndices n rs := by
  intro rs
  induction rs generalizing n with
  | nil => intro j h; exact absurd h (by simp)
  | cons r rs ih =>
    intro j h
    cases j with
    | zero => simp [comIndices]
    | succ j =>
      have h' : j < rs.length := by simpa using h
      have hmem := ih (n + 1) j h'
      have heq : n + 1 + j = n + (j + 1) := by omega
      rw [heq] at hmem
      exact List.mem_cons_of_mem _ hmem

theorem relLex_iff_relPrio (x y : ℕ × Regra) (h : x.1 ≤ y.1) :
    relLex x y ↔ relPrio x.2 y.2 := by
  unfold relLex relPrio; omega

theorem orderedInsert_map_snd (x : ℕ × Regra) :
    ∀ u : List (ℕ × Regra), (∀ y ∈ u, x.1 ≤ y.1) →
      List.orderedInsert relPrio x.2 (u.map Prod.snd) =
        (List.orderedInsert relLex x u).map Prod.snd := by
  intro u
  induction u with
  | nil => intro _; rfl
  | cons y u' ih =>
    intro h
    have hxy : x.1 ≤ y.1 := h y (by simp)
    by_cases hp : relPrio x.2 y.2
    · have hl : relLex x y := (relLex_iff_relPrio x y hxy).2 hp
      simp [List.orderedInsert, hp, hl]
    · have hl : ¬ relLex x y := fun hc => hp ((relLex_iff_relPrio x y hxy).1 hc)
      simp only [List.map_cons, List.orderedInsert, if_neg hp, if_neg hl, List.map_cons]
      rw [ih (fun z hz => h z (by simp [hz]))]

/-- Sorting the bare rules by priority agrees with sorting the indexed
rules lexicographically and forgetting the indices: this is the precise
sense in which insertion sort by priority is stable. -/
theorem insertionSort_map_snd :
    ∀ l : List (ℕ × Regra), l.Pairwise (fun e f => e.1 < f.1) →
      List.insertionSort relPrio (l.map Prod.snd) =
        (List.insertionSort relLex l).map Prod.snd := by
  intro l
  induction l with
  | nil => intro _; rfl
  | cons x t ih =>
    intro hp
    rcases List.pairwise_cons.1 hp with ⟨hx, ht⟩
    have hmem : ∀ y ∈ List.insertionSort relLex t, x.1 ≤ y.1 := by
      intro y hy
      exact Nat.le_of_lt (hx y ((List.mem_insertionSort relLex).1 hy))
    simp only [List.map_cons, List.insertionSort]
    rw [ih ht, orderedInsert_map_snd x _ hmem]

/-- In a list sorted by a relation, an element `q` that is not below `p`
appears after `p` (both assumed present and distinct). -/
theorem pairwise_split_of_not_rel {α : Type} {R : α → α → Prop} :
    ∀ {l : List α} {p q : α}, l.Pairwise R → p ∈ l → q ∈ l → p ≠ q →
      ¬ R q p → ∃ u v w, l = u ++ p :: v ++ q :: w := by
  intro l
  induction l with
  | nil => intro p q _ hp; cases hp
  | cons z t ih =>
    intro p q hpw hp hq hne hnot
    rcases List.pairwise_cons.1 hpw with ⟨hz, ht⟩
    rcases (List.mem_cons).1 hp with hpz | hpt
    · subst hpz
      rcases (List.mem_cons).1 hq with hqz | hqt
      · exact absurd hqz.symm hne
      · obtain ⟨v, w, hvw⟩ := List.append_of_mem hqt
        exact ⟨[], v, w, by simp [hvw]⟩
    · rcases (List.mem_cons).1 hq with hqz | hqt
      · exact absurd (hqz ▸ hz p hpt) hnot
      · obtain ⟨u, v, w, huvw⟩ := ih ht hpt hqt hne hnot
        exact ⟨z :: u, v, w, by simp [huvw]⟩

/-- The load-time sort, re-expressed as the lexicographic sort of the
indexed rules with the indices forgotten. -/
theorem ordenar_eq_map_snd (rs : List Regra) :
    ordenarRegras rs =
      (List.insertionSort relLex (comIndices 0 rs)).map Prod.snd := by
  have h := insertionSort_map_snd (comIndices 0 rs) (comIndices_pairwise 0 rs)
  rw [comIndices_map_snd] at h
  exact h

/-- Evaluating against the sorted rule list returns the payload of the
matching rule that is minimal for (priority, source position), provided
every rule strictly smaller in that order fails definitely. -/
theorem avaliar_ordenado (rs : List Regra) (a : Record) (i : ℕ)
    (hi : i < rs.length)
    (hmatch : checkConds a (rs.get ⟨i, hi⟩).condicoes = .ok true)
    (hbefore : ∀ (j : ℕ) (hj : j < rs.length),
      ((rs.get ⟨j, hj⟩).prioridade < (rs.get ⟨i, hi⟩).prioridade ∨
        ((rs.get ⟨j, hj⟩).prioridade = (rs.get ⟨i, hi⟩).prioridade ∧ j < i)) →
      checkConds a (rs.get ⟨j, hj⟩).condicoes = .ok false) :
    avaliar_alerta (ordenarRegras rs) a =
      .ok ((rs.get ⟨i, hi⟩).resultado.risco, (rs.get ⟨i, hi⟩).resultado.acao,
        (rs.get ⟨i, hi⟩).id) := by
  have hperm : (List.insertionSort relLex (comIndices 0 rs)).Perm
      (comIndices 0 rs) := List.perm_insertionSort relLex _
  have hsorted : (List.insertionSort relLex (comIndices 0 rs)).Pairwise relLex :=
    List.sorted_insertionSort relLex _
  have hX0 : ((0 + i : ℕ), rs.get ⟨i, hi⟩) ∈ comIndices 0 rs :=
    comIndices_get_mem 0 rs i hi
  rw [Nat.zero_add] at hX0
  have hXmem : ((i : ℕ), rs.get ⟨i, hi⟩) ∈
      List.insertionSort relLex (comIndices 0 rs) := by
    rw [hperm.mem_iff]; exact hX0
  obtain ⟨u, w, huw⟩ := List.append_of_mem hXmem
  have hnodupC : (comIndices 0 rs).Nodup :=
    List.Pairwise.imp (fun h heq => absurd (heq ▸ h) (lt_irrefl _))
      (comIndices_pairwise 0 rs)
  have hnodupS : (List.insertionSort relLex (comIndices 0 rs)).Nodup :=
    (hperm.nodup_iff).2 hnodupC
  have hXnot : ((i : ℕ), rs.get ⟨i, hi⟩) ∉ u := by
    rw [huw] at hnodupS
    intro hmemu
    exact (List.disjoint_of_nodup_append hnodupS) hmemu (List.mem_cons_self _ _)
  have hufail : ∀ e ∈ u, checkConds a e.2.condicoes = .ok false := by
    intro e heu
    have hes : e ∈ List.insertionSort relLex (comIndices 0 rs) := by
      rw [huw]; exact List.mem_append_left _ heu
    have heC : e ∈ comIndices 0 rs := hperm.subset hes
    obtain ⟨j, hj, hej⟩ := mem_comIndices 0 rs e heC
    rw [Nat.zero_add] at hej
    have hrel : relLex e ((i : ℕ), rs.get ⟨i, hi⟩) := by
      rw [huw] at hsorted
      exact (List.pairwise_append.1 hsorted).2.2 e heu _ (List.mem_cons_self _ _)
    have hji : j ≠ i := by
      intro hji
      subst hji
      apply hXnot
      have : rs.get ⟨j, hj⟩ = rs.get ⟨j, hi⟩ := rfl
      rw [hej, this] at heu
      exact heu
    rw [hej] at hrel
    unfold relLex at hrel
    have hcond : (rs.get ⟨j, hj⟩).prioridade < (rs.get ⟨i, hi⟩).prioridade ∨
        ((rs.get ⟨j, hj⟩).prioridade = (rs.get ⟨i, hi⟩).prioridade ∧ j < i) := by
      rcases hrel with h | ⟨h₁, h₂⟩
      · exact Or.inl h
      · exact Or.inr ⟨h₁, by omega⟩
    have := hbefore j hj hcond
    rw [hej]
    exact this
  rw [ordenar_eq_map_snd rs, huw, List.map_append, List.map_cons]
  exact avaliar_first_match a (u.map Prod.snd) _ (w.map Prod.snd)
    (fun r' hr' => by
      obtain ⟨e, heu, hesnd⟩ := List.mem_map.1 hr'
      rw [← hesnd]
      exact hufail e heu)
    hmatch

/-- Stability of the load-time sort: two rules of equal priority appear
in the sorted list in their source order. -/
theorem ordenar_stable (rs : List Regra) (i j : ℕ) (hi : i < rs.length)
    (hj : j < rs.length) (hij : i < j)
    (hpeq : (rs.get ⟨i, hi⟩).prioridade = (rs.get ⟨j, hj⟩).prioridade) :
    ∃ u v w, ordenarRegras rs =
      u ++ rs.get ⟨i, hi⟩ :: v ++ rs.get ⟨j, hj⟩ :: w := by
  have hperm : (List.insertionSort relLex (comIndices 0 rs)).Perm
      (comIndices 0 rs) := List.perm_insertionSort relLex _
  have hsorted : (List.insertionSort relLex (comIndices 0 rs)).Pairwise relLex :=
    List.sorted_insertionSort relLex _
  have hpC : ((0 + i : ℕ), rs.get ⟨i, hi⟩) ∈ comIndices 0 rs :=
    comIndices_get_mem 0 rs i hi
  have hqC : ((0 + j : ℕ), rs.get ⟨j, hj⟩) ∈ comIndices 0 rs :=
    comIndices_get_mem 0 rs j hj
  rw [Nat.zero_add] at hpC hqC
  have hp : ((i : ℕ), rs.get ⟨i, hi⟩) ∈
      List.insertionSort relLex (comIndices 0 rs) := by
    rw [hperm.mem_iff]; exact hpC
  have hq : ((j : ℕ), rs.get ⟨j, hj⟩) ∈
      List.insertionSort relLex (comIndices 0 rs) := by
    rw [hperm.mem_iff]; exact hqC
  have hne : ((i : ℕ), rs.get ⟨i, hi⟩) ≠ ((j : ℕ), rs.get ⟨j, hj⟩) := by
    intro h
    have : i = j := congrArg Prod.fst h
    omega
  have hnot : ¬ relLex ((j : ℕ), rs.get ⟨j, hj⟩) ((i : ℕ), rs.get ⟨i, hi⟩) := by
    intro hcon
    unfold relLex at hcon
    rcases hcon with h | ⟨_, h₂⟩
    · rw [hpeq] at h; exact absurd h (lt_irrefl _)
    · omega
  obtain ⟨u, v, w, hsplit⟩ := pairwise_split_of_not_rel hsorted hp hq hne hnot
  refine ⟨u.map Prod.snd, v.map Prod.snd, w.map Prod.snd, ?_⟩
  rw [ordenar_eq_map_snd rs, hsplit]
  simp

/-! ### Claim theorems -/

/-- C1, counterexample to the claim as stated: the record binds `temp` to
a string, so the first rule's ordering comparison raises `TypeError` and
`avaliar_alerta` propagates the error instead of returning the payload
of `regraVazia`, the first (and only) rule whose conditions all hold. -/
theorem claim_C1_counterexample :
    checkConds recTempStr regraVazia.condicoes = .ok true ∧
    checkConds recTempStr regraOrd.condicoes = .error .typeError ∧
    avaliar_alerta [regraOrd, regraVazia] recTempStr = .error .typeError := by
  decide

/-- C1, as amended: provided every rule before the first fully-satisfied
one fails definitely (evaluates to false rather than raising),
`avaliar_alerta` returns the payload and id of that first rule and no
later rule affects the result; and the condition loop checks conditions
in declared order, stopping at the first failing condition, so that the
conditions after it are irrelevant. -/
theorem claim_C1_first_match :
    (∀ (rs₁ : List Regra) (r : Regra) (rs₂ : List Regra) (a : Record),
      (∀ r' ∈ rs₁, checkConds a r'.condicoes = .ok false) →
      checkConds a r.condicoes = .ok true →
      avaliar_alerta (rs₁ ++ r :: rs₂) a =
        .ok (r.resultado.risco, r.resultado.acao, r.id)) ∧
    (∀ (a : Record) (cs₁ : List Condicao) (c : Condicao) (cs₂ : List Condicao),
      (∀ c' ∈ cs₁, condVale a c' = .ok true) → condVale a c = .ok false →
      checkConds a (cs₁ ++ c :: cs₂) = .ok false) :=
  ⟨fun rs₁ r rs₂ a h₁ hr => avaliar_first_match a rs₁ r rs₂ h₁ hr,
   fun a cs₁ c cs₂ h₁ hc => checkConds_break a cs₁ c cs₂ h₁ hc⟩

/-- C1, witness: on the empty record the ordering rule fails definitely
(missing field), so the empty-condition rule that follows it fires; and
a failing first condition settles a condition list regardless of what
follows. -/
theorem claim_C1_witness :
    avaliar_alerta ([regraOrd] ++ regraVazia :: []) recVazio =
      .ok (regraVazia.resultado.risco, regraVazia.resultado.acao,
        regraVazia.id) ∧
    checkConds recVazio ([] ++ condTempGt40 :: [condTempGt40]) = .ok false :=
  ⟨claim_C1_first_match.1 [regraOrd] regraVazia [] recVazio (by decide)
      (by decide),
   claim_C1_first_match.2 recVazio [] condTempGt40 [condTempGt40] (by decide)
      (by decide)⟩

/-- C3, counterexample to the claim as stated: the record matches zero
rules (no rule's conditions all hold), yet the evaluation raises a
`TypeError` instead of returning the default result. -/
theorem claim_C3_counterexample :
    checkConds recTempStr regraOrd.condicoes ≠ .ok true ∧
    avaliar_alerta [regraOrd] recTempStr = .error .typeError ∧
    avaliar_alerta [regraOrd] recTempStr ≠
      .ok ("NORMAL", "Monitorização de rotina.", "SEM_REGRA") := by
  decide

/-- C3, as amended: a record on which every rule's condition check
evaluates to a definite failure (no match and no raised comparison
error) yields the default result: risk `NORMAL`, the routine-monitoring
action, and the sentinel `SEM_REGRA` as matched rule id. -/
theorem claim_C3_default (rs : List Regra) (a : Record)
    (h : ∀ r ∈ rs, checkConds a r.condicoes = .ok false) :
    avaliar_alerta rs a =
      .ok ("NORMAL", "Monitorização de rotina.", "SEM_REGRA") :=
  avaliar_default a rs h

/-- C3, witness: the empty record fails the ordering rule definitely
(missing field) and receives the default result. -/
theorem claim_C3_witness :
    avaliar_alerta [regraOrd] recVazio =
      .ok ("NORMAL", "Monitorização de rotina.", "SEM_REGRA") :=
  claim_C3_default [regraOrd] recVazio (by decide)

/-- C5, counterexample to the claim as stated: a missing rule file does
not fail construction; the engine is built with an empty rule list. -/
theorem claim_C5_counterexample :
    motorInit ParseOutcome.fileNotFound = .ok [] := rfl

/-- C5, as amended: both load-time failures (file not found, JSON decode
error) are caught inside the constructor, which then succeeds with an
empty rule list; no distinguishable error reaches the caller. -/
theorem claim_C5_swallowed :
    motorInit ParseOutcome.fileNotFound = .ok [] ∧
    motorInit ParseOutcome.decodeError = .ok [] :=
  ⟨rfl, rfl⟩

/-- C7: a condition whose field is absent from the record is treated as
failed without raising an error, the rule does not match, and the scan
proceeds to the remaining rules (whatever they produce). -/
theorem claim_C7_missing_field (a : Record) (r : Regra) (resto : List Regra)
    (cs₁ cs₂ : List Condicao) (c : Condicao)
    (hsplit : r.condicoes = cs₁ ++ c :: cs₂)
    (hprev : ∀ c' ∈ cs₁, condVale a c' = .ok true)
    (hmiss : a.lookup c.variavel = none) :
    condVale a c = .ok false ∧
    checkConds a r.condicoes = .ok false ∧
    avaliar_alerta (r :: resto) a = avaliar_alerta resto a := by
  have hc : condVale a c = .ok false := by unfold condVale; rw [hmiss]
  have hch : checkConds a r.condicoes = .ok false := by
    rw [hsplit]; exact checkConds_break a cs₁ c cs₂ hprev hc
  exact ⟨hc, hch, avaliar_skip a r resto hch⟩

/-- C7, witness: the empty record lacks `temp`, so the ordering rule is
skipped and evaluation continues with the remaining rule. -/
theorem claim_C7_witness :
    condVale recVazio condTempGt40 = .ok false ∧
    checkConds recVazio regraOrd.condicoes = .ok false ∧
    avaliar_alerta (regraOrd :: [regraVazia]) recVazio =
      avaliar_alerta [regraVazia] recVazio :=
  claim_C7_missing_field recVazio regraOrd [regraVazia] [] [] condTempGt40
    rfl (by decide) rfl

/-- C8: a rule with an empty condition list matches every record, so when
the scan reaches it (every earlier rule failing definitely) its payload
is returned, whatever rules follow. -/
theorem claim_C8_empty_conditions (a : Record) (rs₁ rs₂ : List Regra)
    (r : Regra) (hr : r.condicoes = [])
    (h₁ : ∀ r' ∈ rs₁, checkConds a r'.condicoes = .ok false) :
    checkConds a r.condicoes = .ok true ∧
    avaliar_alerta (rs₁ ++ r :: rs₂) a =
      .ok (r.resultado.risco, r.resultado.acao, r.id) := by
  have hc : checkConds a r.condicoes = .ok true := by rw [hr]; rfl
  exact ⟨hc, avaliar_first_match a rs₁ r rs₂ h₁ hc⟩

/-- C8, witness: with the ordering rule failing on the empty record, the
first empty-condition rule fires even though another one follows. -/
theorem claim_C8_witness :
    checkConds recVazio regraVazia.condicoes = .ok true ∧
    avaliar_alerta ([regraOrd] ++ regraVazia :: [regraVazia2]) recVazio =
      .ok (regraVazia.resultado.risco, regraVazia.resultado.acao,
        regraVazia.id) :=
  claim_C8_empty_conditions recVazio [regraOrd] [regraVazia2] regraVazia rfl
    (by decide)

/-- C10: with an empty rule list `processar_dataset` returns `None` for
every input dataset, and for any rule list it returns `None` (neither
raising nor returning partial results) when the record source file is
missing or unreadable. -/
theorem claim_C10_refusal :
    (∀ src : CsvOutcome, processar_dataset [] src = .ok none) ∧
    (∀ regras : List Regra,
      processar_dataset regras CsvOutcome.fileNotFound = .ok none ∧
      processar_dataset regras CsvOutcome.readError = .ok none) := by
  constructor
  · intro src; rfl
  · intro regras
    unfold processar_dataset
    by_cases h : regras.isEmpty
    · rw [if_pos h]; exact ⟨rfl, rfl⟩
    · rw [if_neg h]; exact ⟨rfl, rfl⟩

/-- The condition evaluator raises exactly when an ordering operator is
applied to operands of different kinds (a string against a number);
same-kind ordering comparisons, equality, inequality and unrecognized
operators never raise. -/
theorem verificar_error_iff (x : Value) (op : String) (y : Value) :
    verificar_condicao x op y = .error .typeError ↔
      (op ∈ ([">", "<", ">=", "<="] : List String) ∧ x.sameKind y = false) := by
  by_cases h1 : op = ">"
  · subst h1; cases x <;> cases y <;>
      simp [verificar_condicao, pyGt, Value.sameKind]
  by_cases h2 : op = "<"
  · subst h2; cases x <;> cases y <;>
      simp [verificar_condicao, pyLt, Value.sameKind]
  by_cases h3 : op = "=="
  · subst h3; simp [verificar_condicao]
  by_cases h4 : op = "!="
  · subst h4; simp [verificar_condicao]
  by_cases h5 : op = ">="
  · subst h5; cases x <;> cases y <;>
      simp [verificar_condicao, pyGe, Value.sameKind]
  by_cases h6 : op = "<="
  · subst h6; cases x <;> cases y <;>
      simp [verificar_condicao, pyLe, Value.sameKind]
  · simp [verificar_condicao, h1, h2, h3, h4, h5, h6]

/-- C4, counterexample to the claim as stated: an ordering comparison
between a string-valued record field and a numeric rule operand raises
`TypeError`, which propagates out of `avaliar_alerta` instead of being
treated as a failed condition. -/
theorem claim_C4_counterexample :
    verificar_condicao (.str "quente") ">" (.num 40) = .error .typeError ∧
    avaliar_alerta [regraOrd] recTempStr = .error .typeError := by
  decide

/-- C4, as amended: an ordering comparison raises a runtime `TypeError`
exactly when its operands have different kinds; ordering between two
strings is evaluated lexicographically (it can hold, and is not treated
as failed), and ordering between two numbers is numeric. -/
theorem claim_C4_ordering_typing :
    (∀ (x : Value) (op : String) (y : Value),
      verificar_condicao x op y = .error .typeError ↔
        (op ∈ ([">", "<", ">=", "<="] : List String) ∧
          x.sameKind y = false)) ∧
    (∀ s t : String,
      verificar_condicao (.str s) ">" (.str t) = .ok (decide (t < s))) ∧
    (∀ q r : ℚ,
      verificar_condicao (.num q) ">" (.num r) = .ok (decide (r < q))) :=
  ⟨verificar_error_iff, fun _ _ => rfl, fun _ _ => rfl⟩

/-- C6, counterexample to the claim as stated: a structurally parseable
rule set containing a condition with a missing `operador` key loads
successfully; no `InvalidRuleError` (nor any error) is produced. -/
theorem claim_C6_counterexample :
    motorInit (ParseOutcome.parsed [rawRegraSemOp]) = .ok [rawRegraSemOp] := by
  decide

/-- C6, as amended: loading performs no per-rule validation.  Any parsed
document whose rules all carry a `prioridade` key loads successfully
(rules stably sorted by priority) regardless of missing ids, missing
condition fields, or unrecognized operators; a rule missing `prioridade`
aborts construction with a `KeyError` (not an `InvalidRuleError` naming
the rule); an unrecognized operator merely makes the condition evaluate
to false at evaluation time. -/
theorem claim_C6_no_validation :
    (∀ doc : List RawRegra, (∀ r ∈ doc, r.prioridade.isSome) →
      motorInit (.parsed doc) = .ok (List.insertionSort relRawPrio doc)) ∧
    (∀ doc : List RawRegra, (∃ r ∈ doc, r.prioridade = none) →
      motorInit (.parsed doc) = .error (.keyError "prioridade")) ∧
    (∀ (x : Value) (op : String) (y : Value),
      op ∉ ([">", "<", "==", "!=", ">=", "<="] : List String) →
      verificar_condicao x op y = .ok false) := by
  refine ⟨?_, ?_, ?_⟩
  · intro doc h
    simp only [motorInit]
    rw [if_pos (List.all_eq_true.2 h)]
  · intro doc h
    obtain ⟨r, hr, hnone⟩ := h
    simp only [motorInit]
    rw [if_neg]
    intro hall
    have := List.all_eq_true.1 hall r hr
    rw [hnone] at this
    exact Bool.noConfusion this
  · intro x op y h
    have h1 : op ≠ ">" := fun he => h (by simp [he])
    have h2 : op ≠ "<" := fun he => h (by simp [he])
    have h3 : op ≠ "==" := fun he => h (by simp [he])
    have h4 : op ≠ "!=" := fun he => h (by simp [he])
    have h5 : op ≠ ">=" := fun he => h (by simp [he])
    have h6 : op ≠ "<=" := fun he => h (by simp [he])
    simp [verificar_condicao, h1, h2, h3, h4, h5, h6]

/-- C6, witness: the document with the operator-less condition loads and
is returned sorted; a document whose rule lacks `prioridade` raises
`KeyError`; an unrecognized operator string evaluates to false. -/
theorem claim_C6_witness :
    motorInit (ParseOutcome.parsed [rawRegraSemOp]) =
      .ok (List.insertionSort relRawPrio [rawRegraSemOp]) ∧
    motorInit (ParseOutcome.parsed [rawRegraSemPrio]) =
      .error (.keyError "prioridade") ∧
    verificar_condicao (.num 1) "contains" (.num 2) = .ok false :=
  ⟨claim_C6_no_validation.1 [rawRegraSemOp] (by decide),
   claim_C6_no_validation.2.1 [rawRegraSemPrio]
     ⟨rawRegraSemPrio, by simp, rfl⟩,
   claim_C6_no_validation.2.2 (.num 1) "contains" (.num 2) (by decide)⟩

/-- C2, counterexample to the claim as stated: `regraVazia` and
`regraVazia2` both match the record and `regraVazia` has the lower
priority value, but the returned result is not its payload: the
higher-priority ordering rule raises `TypeError` first and the error
propagates. -/
theorem claim_C2_counterexample :
    checkConds recTempStr regraVazia.condicoes = .ok true ∧
    checkConds recTempStr regraVazia2.condicoes = .ok true ∧
    regraVazia.prioridade < regraVazia2.prioridade ∧
    avaliar_alerta (ordenarRegras [regraOrd, regraVazia, regraVazia2])
      recTempStr = .error .typeError := by
  decide

/-- C2, as amended: loading sorts the rules by priority ascending
(a permutation of the input, sorted, and stable: equal-priority rules
keep their source order); and for every record, if a rule matches and
every rule that is strictly smaller in the (priority, source position)
order fails definitely (no match and no raised comparison error), the
returned result is that rule's payload — lower priority value wins, ties
resolved to the rule appearing earlier in the source. -/
theorem claim_C2_priority_order (rs : List Regra) :
    (ordenarRegras rs).Perm rs ∧
    (ordenarRegras rs).Pairwise relPrio ∧
    (∀ (i' j' : ℕ) (hi' : i' < rs.length) (hj' : j' < rs.length), i' < j' →
      (rs.get ⟨i', hi'⟩).prioridade = (rs.get ⟨j', hj'⟩).prioridade →
      ∃ u v w, ordenarRegras rs =
        u ++ rs.get ⟨i', hi'⟩ :: v ++ rs.get ⟨j', hj'⟩ :: w) ∧
    (∀ (a : Record) (i : ℕ) (hi : i < rs.length),
      checkConds a (rs.get ⟨i, hi⟩).condicoes = .ok true →
      (∀ (j : ℕ) (hj : j < rs.length),
        ((rs.get ⟨j, hj⟩).prioridade < (rs.get ⟨i, hi⟩).prioridade ∨
          ((rs.get ⟨j, hj⟩).prioridade = (rs.get ⟨i, hi⟩).prioridade ∧
            j < i)) →
        checkConds a (rs.get ⟨j, hj⟩).condicoes = .ok false) →
      avaliar_alerta (ordenarRegras rs) a =
        .ok ((rs.get ⟨i, hi⟩).resultado.risco,
          (rs.get ⟨i, hi⟩).resultado.acao, (rs.get ⟨i, hi⟩).id)) :=
  ⟨List.perm_insertionSort relPrio rs,
   List.sorted_insertionSort relPrio rs,
   fun i' j' hi' hj' hij hpeq => ordenar_stable rs i' j' hi' hj' hij hpeq,
   fun a i hi hmatch hbefore => avaliar_ordenado rs a i hi hmatch hbefore⟩

/-- C2, witness: the source list holds the priority-2 empty-condition
rule before the priority-1 ordering rule; on a numeric record matching
both, the sorted scan returns the priority-1 rule's payload. -/
theorem claim_C2_witness :
    (ordenarRegras [regraVazia, regraOrd]).Perm [regraVazia, regraOrd] ∧
    (ordenarRegras [regraVazia, regraOrd]).Pairwise relPrio ∧
    (∀ (i' j' : ℕ) (hi' : i' < ([regraVazia, regraOrd] : List Regra).length)
      (hj' : j' < ([regraVazia, regraOrd] : List Regra).length), i' < j' →
      (([regraVazia, regraOrd] : List Regra).get ⟨i', hi'⟩).prioridade =
        (([regraVazia, regraOrd] : List Regra).get ⟨j', hj'⟩).prioridade →
      ∃ u v w, ordenarRegras [regraVazia, regraOrd] =
        u ++ ([regraVazia, regraOrd] : List Regra).get ⟨i', hi'⟩ :: v ++
          ([regraVazia, regraOrd] : List Regra).get ⟨j', hj'⟩ :: w) ∧
    avaliar_alerta (ordenarRegras [regraVazia, regraOrd]) recTempNum =
      .ok (regraOrd.resultado.risco, regraOrd.resultado.acao, regraOrd.id) :=
  ⟨(claim_C2_priority_order [regraVazia, regraOrd]).1,
   (claim_C2_priority_order [regraVazia, regraOrd]).2.1,
   (claim_C2_priority_order [regraVazia, regraOrd]).2.2.1,
   (claim_C2_priority_order [regraVazia, regraOrd]).2.2.2 recTempNum 1
     (by decide) (by decide) (by decide)⟩

/-- C9, counterexample to the claim as stated: with an empty (loaded)
rule list and one input record, the batch run returns `None` — zero
results — instead of one result equal to `avaliar_alerta` on the record
(which would be the default result). -/
theorem claim_C9_counterexample :
    processar_dataset [] (CsvOutcome.rows [recTempNum]) = .ok none ∧
    processar_dataset [] (CsvOutcome.rows [recTempNum]) ≠
      .ok (some [("NORMAL", "Monitorização de rotina.", "SEM_REGRA")]) := by
  decide

/-- C9, as amended: whenever `processar_dataset` returns a result table
(rule list nonempty, CSV read successful, no evaluation error raised),
it contains exactly one result per input record, in input order, each
equal to `avaliar_alerta` on the corresponding record. -/
theorem claim_C9_batch (regras : List Regra) (src : CsvOutcome)
    (out : List (String × String × String))
    (h : processar_dataset regras src = .ok (some out)) :
    ∃ dados, src = CsvOutcome.rows dados ∧ out.length = dados.length ∧
      ∀ (k : ℕ) (h₁ : k < dados.length) (h₂ : k < out.length),
        avaliar_alerta regras (dados.get ⟨k, h₁⟩) = .ok (out.get ⟨k, h₂⟩) := by
  unfold processar_dataset at h
  by_cases hre : regras.isEmpty
  · rw [if_pos hre] at h
    simp at h
  · rw [if_neg hre] at h
    cases src with
    | fileNotFound => simp at h
    | readError => simp at h
    | rows dados =>
      refine ⟨dados, rfl, ?_⟩
      have h' : (match avaliarCada regras dados with
          | Except.error e => (Except.error e :
              Except PyErr (Option (List (String × String × String))))
          | Except.ok resultados => Except.ok (some resultados)) =
          Except.ok (some out) := h
      cases hres : avaliarCada regras dados with
      | error e => rw [hres] at h'; cases h'
      | ok resultados =>
        rw [hres] at h'
        have hout : resultados = out := by simpa using h'
        subst hout
        exact avaliarCada_ok regras dados resultados hres

/-- C9, witness: a two-record batch against the singleton empty-condition
rule list yields exactly two results, in order, each the rule's payload. -/
theorem claim_C9_witness :
    ∃ dados, CsvOutcome.rows [recVazio, recTempNum] = CsvOutcome.rows dados ∧
      ([("ALTO", "Enviar vigilância.", "REGRA_VAZIA"),
        ("ALTO", "Enviar vigilância.", "REGRA_VAZIA")] :
          List (String × String × String)).length = dados.length ∧
      ∀ (k : ℕ) (h₁ : k < dados.length)
        (h₂ : k < ([("ALTO", "Enviar vigilância.", "REGRA_VAZIA"),
          ("ALTO", "Enviar vigilância.", "REGRA_VAZIA")] :
            List (String × String × String)).length),
        avaliar_alerta [regraVazia] (dados.get ⟨k, h₁⟩) =
          .ok (([("ALTO", "Enviar vigilância.", "REGRA_VAZIA"),
            ("ALTO", "Enviar vigilância.", "REGRA_VAZIA")] :
              List (String × String × String)).get ⟨k, h₂⟩) :=
  claim_C9_batch [regraVazia] (CsvOutcome.rows [recVazio, recTempNum])
    [("ALTO", "Enviar vigilância.", "REGRA_VAZIA"),
     ("ALTO", "Enviar vigilância.", "REGRA_VAZIA")] (by decide)

end RulesEngine
